import Mathlib

/-!
Verification development for the asciidoctor-rs conversion library.

The source is shallowly embedded: bytes are `Nat` values, the streaming
reader plus the internal 4096-byte buffer of the Lexer are abstracted as
the list of bytes not yet consumed (this is observationally faithful for
every code path except the block-comment delimiter comparison, which
reads the raw buffer and is therefore given its own buffered model at
the end of the definitions), fallible operations return `Except Error`,
and loops take an explicit fuel argument so that every definition is
executable by kernel reduction.  Wrapper functions choose a fuel that is
always sufficient (the loops of the source consume at least one byte or
one token per iteration).
-/

namespace Adoc

/-- Modelled from the spec: the source file position.rs is absent from the
repository snapshot; the spec (section 3) describes the Position record as
a pair of 1-based line and column numbers, mutated only by the Lexer. -/
structure Pos where
  line : Nat
  column : Nat
deriving DecidableEq, Repr

/-- Different types of token (token.rs).  The three double-marker variants
are referenced by parser.rs but are absent from the Token enum of
token.rs; they are included here so that the dispatch of parser.rs can be
embedded as written.  Modelled from the spec (section 3): the double-char
unconstrained-markup variants. -/
inductive Token where
  | backquote
  | caret
  | closeSquareBracket
  | newLine
  | numberSign
  | openSquareBracket
  | space
  | star
  | tilde
  | tripleApos
  | tripleLt
  | underscore
  | word (bytes : List Nat)
  | doubleBackquote
  | doubleStar
  | doubleUnderscore
deriving DecidableEq, Repr

/-- Errors (error.rs). -/
inductive Error where
  | eof
  | msg (s : String)
  | unexpectedChar (actual : Nat) (expected : List Nat) (pos : Pos)
  | unexpectedToken (actual : String) (expected : String) (pos : Pos)
deriving DecidableEq, Repr

/-- Convert the token to a user-readable string (token.rs, Token::to_string). -/
def Token.toStr : Token → String
  | .backquote => "`"
  | .caret => "^"
  | .closeSquareBracket => "]"
  | .newLine => "(newline)"
  | .numberSign => "#"
  | .openSquareBracket => "["
  | .space => "(space)"
  | .star => "*"
  | .tilde => "~"
  | .tripleApos => "'''"
  | .tripleLt => "<<<"
  | .underscore => "_"
  | .word w => String.mk (w.map Char.ofNat)
  | .doubleBackquote => "``"
  | .doubleStar => "**"
  | .doubleUnderscore => "__"

/-- Debug rendering of a byte list, as the Rust Debug instance prints a
Vec of bytes. -/
def listDebug (bs : List Nat) : String :=
  "[" ++ String.intercalate ", " (bs.map (fun b => toString b)) ++ "]"

/-- Debug rendering of a token, as the Rust derived Debug instance. -/
def Token.debugStr : Token → String
  | .backquote => "Backquote"
  | .caret => "Caret"
  | .closeSquareBracket => "CloseSquareBracket"
  | .newLine => "NewLine"
  | .numberSign => "NumberSign"
  | .openSquareBracket => "OpenSquareBracket"
  | .space => "Space"
  | .star => "Star"
  | .tilde => "Tilde"
  | .tripleApos => "TripleApos"
  | .tripleLt => "TripleLt"
  | .underscore => "Underscore"
  | .word w => "Word(" ++ listDebug w ++ ")"
  | .doubleBackquote => "DoubleBackquote"
  | .doubleStar => "DoubleStar"
  | .doubleUnderscore => "DoubleUnderscore"

/-- The Lexer (lexer.rs).  The fields buffer, buffer_index, buffer_size
and reader are abstracted into `input`, the list of bytes that have not
yet been consumed; `read_if_needed` fails with Eof exactly when this list
is empty.  `nextToken` is the one-token lookahead slot holding the token
and the position recorded before it was read (struct NextToken). -/
structure Lexer where
  input : List Nat
  line : Nat
  column : Nat
  nextToken : Option (Pos × Token)
deriving DecidableEq, Repr

/-- A fresh lexer over a byte stream (Lexer::new: line 1, column 1, no
cached token). -/
def Lexer.init (bytes : List Nat) : Lexer :=
  { input := bytes, line := 1, column := 1, nextToken := none }

/-- Get the current position in the file (Lexer::pos): the stored
pre-peek position if a token is cached, the live position otherwise. -/
def Lexer.pos (s : Lexer) : Pos :=
  match s.nextToken with
  | some (p, _) => p
  | none => ⟨s.line, s.column⟩

/-- Advance the internal cursor over one byte (Lexer::advance): newline
starts a new 1-based line, any other byte moves one column. -/
def Lexer.advance (s : Lexer) : Lexer :=
  match s.input with
  | [] => s
  | b :: rest =>
    if b = 10 then { s with input := rest, line := s.line + 1, column := 1 }
    else { s with input := rest, column := s.column + 1 }

/-- Eat the next byte if it is the expected one (Lexer::eat); otherwise
fail with UnexpectedChar carrying the actual byte, the singleton expected
set and the current position. -/
def Lexer.eat (expected : Nat) (s : Lexer) : Except Error Lexer :=
  match s.input with
  | [] => .error .eof
  | b :: _ =>
    if b = expected then .ok s.advance
    else .error (.unexpectedChar b [expected] s.pos)

/-- The byte set that ends a word (lexer.rs, Lexer::word): the bytes of
the string of space, star, underscore, backquote, number sign, brackets,
caret, tilde, colon, newline, carriage return and tab. -/
def isStopByte (b : Nat) : Bool :=
  b == 32 || b == 42 || b == 95 || b == 96 || b == 35 || b == 91 ||
  b == 93 || b == 94 || b == 126 || b == 58 || b == 10 || b == 13 || b == 9

/-- Core of Lexer::word: advance while the current byte is not a stop
byte (Lexer::advance_while with the negated stop predicate), returning
the consumed run, the remaining bytes and the updated position; the
refill that precedes every predicate test makes exhaustion during the
run an Eof failure. -/
def wordAux : List Nat → Nat → Nat → Except Error (List Nat × List Nat × Nat × Nat)
  | [], _, _ => .error .eof
  | b :: rest, line, col =>
    if isStopByte b then .ok ([], b :: rest, line, col)
    else
      match wordAux rest (if b = 10 then line + 1 else line) (if b = 10 then 1 else col + 1) with
      | .error e => .error e
      | .ok (w, rem, l, c) => .ok (b :: w, rem, l, c)

/-- Parse a word (Lexer::word): the maximal run of non-stop bytes; a run
of zero length is the internal invariant violation reported as a fatal
Msg error naming the offending byte. -/
def Lexer.word (s : Lexer) : Except Error (Token × Lexer) :=
  match wordAux s.input s.line s.column with
  | .error e => .error e
  | .ok (w, rem, l, c) =>
    if w = [] then
      match s.input with
      | [] => .error .eof
      | b :: _ =>
        .error (.msg ("bug in the parser, next character `" ++
          String.singleton (Char.ofNat b) ++ "` is not part of a word token"))
    else .ok (.word w, { s with input := rem, line := l, column := c })

/-- Advance until the end of the line (Lexer::advance_to_eol), i.e. while
the current byte is not a newline; Eof on exhaustion. -/
def advanceToEolAux : List Nat → Nat → Nat → Except Error (List Nat × Nat × Nat)
  | [], _, _ => .error .eof
  | b :: rest, line, col =>
    if b = 10 then .ok (b :: rest, line, col)
    else
      match advanceToEolAux rest line (col + 1) with
      | .error e => .error e
      | .ok r => .ok r

/-- Advance while the current byte is a newline (the advance_while call
of Lexer::comment); Eof on exhaustion. -/
def skipNewlinesAux : List Nat → Nat → Nat → Except Error (List Nat × Nat × Nat)
  | [], _, _ => .error .eof
  | b :: rest, line, col =>
    if b = 10 then
      match skipNewlinesAux rest (line + 1) 1 with
      | .error e => .error e
      | .ok r => .ok r
    else .ok (b :: rest, line, col)

/-- Idealized list-level model of the block-comment delimiter loop of
Lexer::comment, comparing the next four unconsumed bytes with the four
slashes.  The buffered model `BufLexer` below captures the real indexing
of the source, which can inspect bytes outside the valid buffer region;
no claim about comment content goes through this idealized version. -/
def commentLoop : Nat → Lexer → Except Error Lexer
  | 0, _ => .error (.msg "fuel exhausted")
  | fuel + 1, s =>
    if s.input.take 4 = [47, 47, 47, 47] then
      match Lexer.eat 47 s with
      | .error e => .error e
      | .ok s1 =>
        match Lexer.eat 47 s1 with
        | .error e => .error e
        | .ok s2 =>
          match Lexer.eat 47 s2 with
          | .error e => .error e
          | .ok s3 => Lexer.eat 47 s3
    else
      match advanceToEolAux s.input s.line s.column with
      | .error e => .error e
      | .ok (rem, l, c) =>
        match skipNewlinesAux rem l c with
        | .error e => .error e
        | .ok (rem2, l2, c2) =>
          commentLoop fuel { s with input := rem2, line := l2, column := c2 }

/-- Parse and discard a comment (Lexer::comment): two slashes begin a
line comment consumed to the next newline; four slashes begin a block
comment consumed through the closing four-slash delimiter. -/
def Lexer.comment (s : Lexer) : Except Error Lexer :=
  match Lexer.eat 47 s with
  | .error e => .error e
  | .ok s1 =>
    match Lexer.eat 47 s1 with
    | .error e => .error e
    | .ok s2 =>
      match s2.input with
      | [] => .error .eof
      | b :: _ =>
        if b = 47 then
          match Lexer.eat 47 s2 with
          | .error e => .error e
          | .ok s3 =>
            match Lexer.eat 47 s3 with
            | .error e => .error e
            | .ok s4 => commentLoop (s4.input.length + 1) s4
        else
          match advanceToEolAux s2.input s2.line s2.column with
          | .error e => .error e
          | .ok (rem, l, c) => .ok { s2 with input := rem, line := l, column := c }

/-- Get the next token (Lexer::token), with fuel for the retries after a
comment or a carriage return; all other branches do not recurse. -/
def Lexer.tokenF : Nat → Lexer → Except Error (Token × Lexer)
  | 0, _ => .error (.msg "fuel exhausted")
  | fuel + 1, s =>
    match s.nextToken with
    | some (_, t) => .ok (t, { s with nextToken := none })
    | none =>
      match s.input with
      | [] => .error .eof
      | b :: _ =>
        if b = 47 then
          match s.comment with
          | .error e => .error e
          | .ok s' => Lexer.tokenF fuel s'
        else if b = 60 then
          match Lexer.eat 60 s with
          | .error e => .error e
          | .ok s1 =>
            match Lexer.eat 60 s1 with
            | .error e => .error e
            | .ok s2 =>
              match Lexer.eat 60 s2 with
              | .error e => .error e
              | .ok s3 => .ok (.tripleLt, s3)
        else if b = 39 then
          match Lexer.eat 39 s with
          | .error e => .error e
          | .ok s1 =>
            match Lexer.eat 39 s1 with
            | .error e => .error e
            | .ok s2 =>
              match Lexer.eat 39 s2 with
              | .error e => .error e
              | .ok s3 => .ok (.tripleApos, s3)
        else if b = 10 then
          match Lexer.eat 10 s with
          | .error e => .error e
          | .ok s' => .ok (.newLine, s')
        else if b = 13 then
          Lexer.tokenF fuel s.advance
        else if b = 35 then
          match Lexer.eat 35 s with
          | .error e => .error e
          | .ok s' => .ok (.numberSign, s')
        else if b = 32 then
          match Lexer.eat 32 s with
          | .error e => .error e
          | .ok s' => .ok (.space, s')
        else if b = 91 then
          match Lexer.eat 91 s with
          | .error e => .error e
          | .ok s' => .ok (.openSquareBracket, s')
        else if b = 93 then
          match Lexer.eat 93 s with
          | .error e => .error e
          | .ok s' => .ok (.closeSquareBracket, s')
        else if b = 95 then
          match Lexer.eat 95 s with
          | .error e => .error e
          | .ok s' => .ok (.underscore, s')
        else
          s.word

/-- Get the next token (Lexer::token); the fuel bound suffices because a
comment consumes at least two bytes and a carriage return one. -/
def Lexer.token (s : Lexer) : Except Error (Token × Lexer) :=
  Lexer.tokenF (s.input.length + 1) s

/-- Peek the next token (Lexer::peek): fill the lookahead slot, recording
the position as it was immediately before the token was read. -/
def Lexer.peek (s : Lexer) : Except Error (Token × Lexer) :=
  match s.nextToken with
  | some (_, t) => .ok (t, s)
  | none =>
    let p := s.pos
    match s.token with
    | .error e => .error e
    | .ok (t, s') => .ok (t, { s' with nextToken := some (p, t) })

/-- Check for a UTF-8 continuation byte. -/
def utf8Cont (b : Nat) : Bool := 128 ≤ b && b ≤ 191

/-- Strict UTF-8 decoding automaton (the validation performed by the Rust
String::from_utf8 used in parser.rs): `pending` counts the continuation
bytes still expected, `acc` the code point accumulated so far, `lo` the
smallest code point the current sequence is allowed to produce (rejecting
overlong encodings); surrogates and code points above 0x10FFFF are
rejected. -/
def utf8Loop : List Nat → Nat → Nat → Nat → Option (List Char)
  | [], 0, _, _ => some []
  | [], _ + 1, _, _ => none
  | b :: rest, 0, _, _ =>
    if b ≤ 127 then (utf8Loop rest 0 0 0).map (fun cs => Char.ofNat b :: cs)
    else if 194 ≤ b && b ≤ 223 then utf8Loop rest 1 (b - 192) 128
    else if 224 ≤ b && b ≤ 239 then utf8Loop rest 2 (b - 224) 2048
    else if 240 ≤ b && b ≤ 244 then utf8Loop rest 3 (b - 240) 65536
    else none
  | b :: rest, n + 1, acc, lo =>
    if utf8Cont b then
      match n with
      | 0 =>
        if lo ≤ acc * 64 + (b - 128) && acc * 64 + (b - 128) ≤ 1114111 &&
            !(55296 ≤ acc * 64 + (b - 128) && acc * 64 + (b - 128) ≤ 57343) then
          (utf8Loop rest 0 0 0).map (fun cs => Char.ofNat (acc * 64 + (b - 128)) :: cs)
        else none
      | m + 1 => utf8Loop rest (m + 1) (acc * 64 + (b - 128)) lo
    else none

/-- Convert a byte list to a string, failing on invalid UTF-8 (the Rust
String::from_utf8; its error converts to a Msg error via the From
instance of error.rs). -/
def utf8String (bs : List Nat) : Except Error String :=
  match utf8Loop bs 0 0 0 with
  | some cs => .ok (String.mk cs)
  | none => .error (.msg "invalid utf-8 sequence")

/-- An attribute like a role or an ID (node.rs).  The Id variant is
referenced by parser.rs; in the node.rs of the snapshot it is commented
out.  Modelled from the spec (section 3): Id, declared via a leading
number sign inside the attribute list. -/
inductive Attribute where
  | id (s : String)
  | role (s : String)
deriving DecidableEq, Repr

/-- Modelled from the spec: the Tag enum of node.rs is absent from the
snapshot of node.rs although parser.rs imports node::Tag; the spec
(section 3) lists the corresponding attribute-bearing inline spans. -/
inductive Tag where
  | bold
  | inlineCode
  | italic
  | subScript
  | superScript
deriving DecidableEq, Repr

mutual

/-- A text item (node.rs together with the constructions of parser.rs):
parser.rs builds `Item::Tag(tag, text, attributes)` for the spans
produced by the parse_text_between macro, `Item::Mark(text, attributes)`,
`Item::Space` and `Item::Word(string)`. -/
inductive Item where
  | tag (tg : Tag) (text : Text) (attrs : List Attribute)
  | mark (text : Text) (attrs : List Attribute)
  | space
  | word (s : String)

/-- A text is an ordered sequence of items (node.rs, struct Text). -/
inductive Text where
  | mk (items : List Item)

end

/-- The item list of a text (node.rs, field items). -/
def Text.items : Text → List Item
  | .mk l => l

/-- A node of the document (node.rs, enum Node). -/
inductive Node where
  | horizontalRule
  | pageBreak
  | paragraph (text : Text)

/-!
The Parser (parser.rs) owns the Lexer as its only state (struct Parser,
field tokens), so the parser functions below act on the `Lexer` state
directly.  Loops and the mutual recursion between text_while and
text_item take an explicit fuel argument; the wrappers pick a fuel that
the loops, which consume at least one token per iteration, cannot
exhaust.
-/

/-- Return an UnexpectedToken error (Parser::unexpected_token): the
actual rendering comes from a fresh peek, the position from pos() after
that peek. -/
def unexpectedToken (s : Lexer) (expected : String) : Error :=
  match s.peek with
  | .ok (t, s') => .unexpectedToken t.toStr expected s'.pos
  | .error _ => .unexpectedToken "(unknown token)" expected s.pos

/-- Eat the expected token or fail (Parser::eat). -/
def pEat (expected : Token) (s : Lexer) : Except Error Lexer :=
  match s.token with
  | .error e => .error e
  | .ok (t, s') =>
    if t = expected then .ok s'
    else .error (unexpectedToken s' expected.toStr)

/-- Parse an attribute (Parser::attribute): a word is a Role, a number
sign followed by a word is an Id, anything else is an UnexpectedToken
error expecting an ident. -/
def pAttribute (s : Lexer) : Except Error (Attribute × Lexer) :=
  match s.token with
  | .error e => .error e
  | .ok (.numberSign, s1) =>
    match s1.token with
    | .error e => .error e
    | .ok (.word w, s2) =>
      match utf8String w with
      | .error e => .error e
      | .ok str => .ok (.id str, s2)
    | .ok (_, s2) => .error (unexpectedToken s2 "ident")
  | .ok (.word w, s1) =>
    match utf8String w with
    | .error e => .error e
    | .ok str => .ok (.role str, s1)
  | .ok (_, s1) => .error (unexpectedToken s1 "ident")

/-- Parse an attribute list if one starts here (Parser::attributes): an
opening bracket, one attribute, a closing bracket. -/
def pAttributes (s : Lexer) : Except Error (List Attribute × Lexer) :=
  match s.peek with
  | .error e => .error e
  | .ok (t, s1) =>
    if t = .openSquareBracket then
      match pEat .openSquareBracket s1 with
      | .error e => .error e
      | .ok s2 =>
        match pAttribute s2 with
        | .error e => .error e
        | .ok (a, s3) =>
          match pEat .closeSquareBracket s3 with
          | .error e => .error e
          | .ok s4 => .ok ([a], s4)
    else .ok ([], s1)

/-- Parse text while the predicate holds of the peeked token
(Parser::text_while), parameterized by the text_item parsing function;
a peeked newline that satisfies the predicate is eaten and skipped, any
other satisfying token is parsed as one item. -/
def textWhileGen (ti : List Attribute → Lexer → Except Error (Item × Lexer)) :
    Nat → (Token → Bool) → Lexer → Except Error (List Item × Lexer)
  | 0, _, _ => .error (.msg "fuel exhausted")
  | fuel + 1, pred, s =>
    match s.peek with
    | .error e => .error e
    | .ok (t, s1) =>
      if pred t then
        if t = .newLine then
          match pEat .newLine s1 with
          | .error e => .error e
          | .ok s2 => textWhileGen ti fuel pred s2
        else
          match ti [] s1 with
          | .error e => .error e
          | .ok (item, s2) =>
            match textWhileGen ti fuel pred s2 with
            | .error e => .error e
            | .ok (items, s3) => .ok (item :: items, s3)
      else .ok ([], s1)

/-- Eat the opening token, parse text until the closing token, eat it
(the text_between macro of parser.rs). -/
def textBetween (ti : List Attribute → Lexer → Except Error (Item × Lexer))
    (fuel : Nat) (tok : Token) (s : Lexer) : Except Error (List Item × Lexer) :=
  match pEat tok s with
  | .error e => .error e
  | .ok s1 =>
    match textWhileGen ti fuel (fun t => decide (t ≠ tok)) s1 with
    | .error e => .error e
    | .ok (items, s2) =>
      match pEat tok s2 with
      | .error e => .error e
      | .ok s3 => .ok (items, s3)

/-- One span production generated by the parse_text_between macro of
parser.rs: the text between two copies of the delimiter becomes an
Item::Tag with the given tag and the pending attributes. -/
def spanGen (ti : List Attribute → Lexer → Except Error (Item × Lexer))
    (fuel : Nat) (tok : Token) (tg : Tag) (attrs : List Attribute) (s : Lexer) :
    Except Error (Item × Lexer) :=
  match textBetween ti fuel tok s with
  | .error e => .error e
  | .ok (items, s') => .ok (.tag tg (.mk items) attrs, s')

/-- Parse a mark (Parser::mark): text between number signs, an Item::Mark
with the pending attributes. -/
def markGen (ti : List Attribute → Lexer → Except Error (Item × Lexer))
    (fuel : Nat) (attrs : List Attribute) (s : Lexer) : Except Error (Item × Lexer) :=
  match textBetween ti fuel .numberSign s with
  | .error e => .error e
  | .ok (items, s') => .ok (.mark (.mk items) attrs, s')

/-- Parse a space item (Parser::space). -/
def pSpace (_attrs : List Attribute) (s : Lexer) : Except Error (Item × Lexer) :=
  match pEat .space s with
  | .error e => .error e
  | .ok s' => .ok (.space, s')

/-- Parse a single word item (Parser::word): a Word token converted to a
string, anything else the fatal Msg error of the source. -/
def pWord (_attrs : List Attribute) (s : Lexer) : Except Error (Item × Lexer) :=
  match s.token with
  | .ok (.word bytes, s') =>
    match utf8String bytes with
    | .error e => .error e
    | .ok str => .ok (.word str, s')
  | _ => .error (.msg "Should have got word token")

/-- Parse a text item (Parser::text_item): an optional attribute list
(rejected if one is already pending), then dispatch on the peeked token
to the matching production. -/
def textItemF : Nat → List Attribute → Lexer → Except Error (Item × Lexer)
  | 0, _, _ => .error (.msg "fuel exhausted")
  | fuel + 1, attrs0, s =>
    match s.peek with
    | .error e => .error e
    | .ok (t0, s1) =>
      let withAttrs :
          List Attribute → Lexer → Except Error (Item × Lexer) := fun attrs s2 =>
        match s2.peek with
        | .error e => .error e
        | .ok (t, s3) =>
          match t with
          | .backquote => spanGen (textItemF fuel) fuel .backquote .inlineCode attrs s3
          | .caret => spanGen (textItemF fuel) fuel .caret .superScript attrs s3
          | .doubleBackquote =>
            spanGen (textItemF fuel) fuel .doubleBackquote .inlineCode attrs s3
          | .doubleStar => spanGen (textItemF fuel) fuel .doubleStar .bold attrs s3
          | .doubleUnderscore =>
            spanGen (textItemF fuel) fuel .doubleUnderscore .italic attrs s3
          | .numberSign => markGen (textItemF fuel) fuel attrs s3
          | .openSquareBracket => textItemF fuel attrs s3
          | .space => pSpace attrs s3
          | .star => spanGen (textItemF fuel) fuel .star .bold attrs s3
          | .tilde => spanGen (textItemF fuel) fuel .tilde .subScript attrs s3
          | .underscore => spanGen (textItemF fuel) fuel .underscore .italic attrs s3
          | .word _ => pWord attrs s3
          | other =>
            .error (.msg ("Should have got text token, but got " ++ other.debugStr))
      if t0 = .openSquareBracket then
        if attrs0 ≠ [] then .error (unexpectedToken s1 "[")
        else
          match pAttributes s1 with
          | .error e => .error e
          | .ok (attrs1, s2) => withAttrs attrs1 s2
      else withAttrs attrs0 s1

/-- Parse text while the predicate holds (Parser::text_while), with the
real text_item tied in at the given fuel. -/
def textWhileF (fuel : Nat) (pred : Token → Bool) (s : Lexer) :
    Except Error (List Item × Lexer) :=
  textWhileGen (textItemF fuel) fuel pred s

/-- The accumulation loop of Parser::paragraph: lines of items are parsed
until the first empty line, whose pending newline is left unconsumed. -/
def paragraphLoop : Nat → List Item → Lexer → Except Error (List Item × Lexer)
  | 0, _, _ => .error (.msg "fuel exhausted")
  | fuel + 1, items, s =>
    match textWhileF fuel (fun t => decide (t ≠ Token.newLine)) s with
    | .error e => .error e
    | .ok (line, s') =>
      if line.isEmpty then .ok (items, s')
      else paragraphLoop fuel (items ++ line) s'

/-- Parse a paragraph (Parser::paragraph). -/
def paragraphF (fuel : Nat) (s : Lexer) : Except Error (Node × Lexer) :=
  match paragraphLoop fuel [] s with
  | .error e => .error e
  | .ok (items, s') => .ok (.paragraph (.mk items), s')

/-- Parse an horizontal rule (Parser::horizontal_rule). -/
def pHorizontalRule (s : Lexer) : Except Error (Node × Lexer) :=
  match pEat .tripleApos s with
  | .error e => .error e
  | .ok s' => .ok (.horizontalRule, s')

/-- Parse a page break (Parser::page_break). -/
def pPageBreak (s : Lexer) : Except Error (Node × Lexer) :=
  match pEat .tripleLt s with
  | .error e => .error e
  | .ok s' => .ok (.pageBreak, s')

/-- Parse the next node (Parser::node): dispatch on the peeked token;
newlines and spaces at node scope are consumed and skipped. -/
def nodeF : Nat → Lexer → Except Error (Node × Lexer)
  | 0, _ => .error (.msg "fuel exhausted")
  | fuel + 1, s =>
    match s.peek with
    | .error e => .error e
    | .ok (t, s1) =>
      match t with
      | .tripleApos => pHorizontalRule s1
      | .tripleLt => pPageBreak s1
      | .newLine =>
        match s1.token with
        | .error e => .error e
        | .ok (_, s2) => nodeF fuel s2
      | .space =>
        match s1.token with
        | .error e => .error e
        | .ok (_, s2) => nodeF fuel s2
      | _ => paragraphF fuel s1

/-- Parse the next node (Parser::node) with sufficient fuel. -/
def node (s : Lexer) : Except Error (Node × Lexer) :=
  nodeF (s.input.length + 8) s

/-- Parse a text item (Parser::text_item) with sufficient fuel. -/
def textItem (attrs : List Attribute) (s : Lexer) : Except Error (Item × Lexer) :=
  textItemF (s.input.length + 8) attrs s

/-- The italic production generated by parse_text_between in parser.rs
(text between constrained underscores). -/
def italic (fuel : Nat) (attrs : List Attribute) (s : Lexer) : Except Error (Item × Lexer) :=
  spanGen (textItemF fuel) fuel .underscore .italic attrs s

/-- The bold production (text between stars). -/
def bold (fuel : Nat) (attrs : List Attribute) (s : Lexer) : Except Error (Item × Lexer) :=
  spanGen (textItemF fuel) fuel .star .bold attrs s

/-- The inline-code production (text between backquotes). -/
def inlineCode (fuel : Nat) (attrs : List Attribute) (s : Lexer) : Except Error (Item × Lexer) :=
  spanGen (textItemF fuel) fuel .backquote .inlineCode attrs s

/-- The subscript production (text between tildes). -/
def subscript (fuel : Nat) (attrs : List Attribute) (s : Lexer) : Except Error (Item × Lexer) :=
  spanGen (textItemF fuel) fuel .tilde .subScript attrs s

/-- The superscript production (text between carets). -/
def superscript (fuel : Nat) (attrs : List Attribute) (s : Lexer) : Except Error (Item × Lexer) :=
  spanGen (textItemF fuel) fuel .caret .superScript attrs s

/-- The mark production (Parser::mark, text between number signs). -/
def mark (fuel : Nat) (attrs : List Attribute) (s : Lexer) : Except Error (Item × Lexer) :=
  markGen (textItemF fuel) fuel attrs s

/-- The driving loop of the external interface (spec section 6 and the
test harness of tests/lib.rs): call node() repeatedly, collecting nodes
until the first error, which ends the sequence. -/
def nodeResults : Nat → Lexer → List (Except Error Node)
  | 0, _ => []
  | k + 1, s =>
    match node s with
    | .ok (n, s') => .ok n :: nodeResults k s'
    | .error e => [.error e]

/-!
The HTML generator (gen/html.rs): an intermediate Html tree built by the
default generator, then serialized depth first into a string (the byte
sink). -/

/-- An HTML node with its children (gen/html.rs, enum Html). -/
inductive Html where
  | div (attributes : String) (children : Html)
  | em (attributes : String) (children : Html)
  | empty
  | hr
  | mark (children : Html)
  | p (children : Html)
  | singleTextNode (s : String)
  | span (attributes : String) (children : Html)
  | textNode (nodes : List Html)

/-- Render the attributes of an attribute list (gen/html.rs,
attributes_to_string): each Role becomes a class binding, concatenated
with no separator.  The Id arm is modelled from the spec: the
attributes_to_string of the snapshot matches only Role, node.rs having Id
commented out, and the spec (section 4.4) gives no Id rendering, so an Id
contributes nothing. -/
def attributesToString : List Attribute → String
  | [] => ""
  | .role role :: rest => "class=\"" ++ role ++ "\"" ++ attributesToString rest
  | .id _ :: rest => attributesToString rest

mutual

/-- Serialize an Html tree (gen/html.rs, Html::write): tag_a writes the
tag name, a space and the attributes; tag writes the bare tag; a text
node writes its children in order. -/
def Html.write : Html → String
  | .div attributes children => "<div " ++ attributes ++ ">" ++ Html.write children ++ "</div>"
  | .em attributes children => "<em " ++ attributes ++ ">" ++ Html.write children ++ "</em>"
  | .empty => ""
  | .hr => "<hr/>"
  | .mark children => "<mark>" ++ Html.write children ++ "</mark>"
  | .p children => "<p>" ++ Html.write children ++ "</p>"
  | .singleTextNode s => s
  | .span attributes children => "<span " ++ attributes ++ ">" ++ Html.write children ++ "</span>"
  | .textNode nodes => Html.writeAll nodes

/-- Serialize the children of a text node in document order. -/
def Html.writeAll : List Html → String
  | [] => ""
  | h :: t => Html.write h ++ Html.writeAll t

end

mutual

/-- Map a text item to Html (the item method of the HtmlGen trait,
gen/html.rs, together with the default span methods).  The arms for
Bold, InlineCode, SubScript and SuperScript tags are modelled from the
spec: the item match of the html.rs snapshot handles only Italic, Mark,
Space and Word, and the spec (section 4.4) gives no default rendering
for the other spans, so they render as Empty here; no claim exercises
them. -/
def genItem : Item → Html
  | .tag .italic text attrs => .em (attributesToString attrs) (genText text)
  | .tag _ _ _ => .empty
  | .mark text attrs =>
    if attrs.isEmpty then .mark (genText text)
    else .span (attributesToString attrs) (genText text)
  | .space => .singleTextNode " "
  | .word s => .singleTextNode s

/-- Map a text to Html (the text method of HtmlGen): a text node holding
the rendering of every item in order. -/
def genText : Text → Html
  | .mk items => .textNode (genItems items)

/-- Map the items of a text in order. -/
def genItems : List Item → List Html
  | [] => []
  | it :: rest => genItem it :: genItems rest

end

/-- The default mark method of HtmlGen (gen/html.rs, lines 85 to 92): a
mark element when no attributes are present, a span carrying the rendered
attributes otherwise. -/
def genMark (text : Text) (attrs : List Attribute) : Html :=
  if attrs.isEmpty then .mark (genText text)
  else .span (attributesToString attrs) (genText text)

/-- The default italic method of HtmlGen (gen/html.rs): an em element
carrying the rendered attributes. -/
def genItalic (text : Text) (attrs : List Attribute) : Html :=
  .em (attributesToString attrs) (genText text)

/-- Map a node to Html (the node method of HtmlGen with the default
horizontal_rule, page_break and paragraph methods; the attr macro writes
each name, an equals sign and the quoted value). -/
def genNode : Node → Html
  | .horizontalRule => .hr
  | .pageBreak => .div ("style=\"" ++ "page-break-after: always;" ++ "\"") .empty
  | .paragraph text => .div ("class=\"" ++ "paragraph" ++ "\"") (.p (genText text))

/-- Render one node with the default generator (gen/html.rs, fn gen):
build the Html tree and write it. -/
def gen (n : Node) : String :=
  Html.write (genNode n)

/-!
Buffered model of the Lexer for the block-comment claim: here the
fixed-capacity read buffer, the index into it, the count of valid bytes
and the remaining source are kept explicitly, because the delimiter
comparison of Lexer::comment indexes the raw buffer and can inspect
bytes beyond the valid region. -/

/-- The buffer capacity of lexer.rs (BUFFER_SIZE). -/
def BUFFER_CAP : Nat := 4096

/-- The Lexer of lexer.rs with its buffer mechanics kept concrete:
buffer is the 4096-byte array (stale bytes and all), bufferIndex the
cursor, bufferSize the count of bytes the last fill returned, reader
the bytes the source still holds. -/
structure BufLexer where
  buffer : List Nat
  bufferIndex : Nat
  bufferSize : Nat
  reader : List Nat
  line : Nat
  column : Nat
deriving DecidableEq, Repr

/-- A fresh buffered lexer (Lexer::new): a zeroed buffer, the index at
the capacity so that the first access triggers a fill, size zero. -/
def BufLexer.init (bytes : List Nat) : BufLexer :=
  { buffer := List.replicate BUFFER_CAP 0, bufferIndex := BUFFER_CAP,
    bufferSize := 0, reader := bytes, line := 1, column := 1 }

/-- Read from the source if needed (Lexer::read_if_needed): when the
index has reached the valid count, a chunk of at most the capacity is
read into the front of the buffer (bytes beyond the chunk keep their
stale values); a zero-length read signals Eof. -/
def BufLexer.readIfNeeded (s : BufLexer) : Except Error BufLexer :=
  if s.bufferSize ≤ s.bufferIndex then
    let chunk := s.reader.take BUFFER_CAP
    if chunk.length = 0 then .error .eof
    else .ok { s with buffer := chunk ++ s.buffer.drop chunk.length,
                      bufferIndex := 0, bufferSize := chunk.length,
                      reader := s.reader.drop BUFFER_CAP }
  else .ok s

/-- Advance the cursor over the given byte (Lexer::advance). -/
def BufLexer.advance (s : BufLexer) (actual : Nat) : BufLexer :=
  if actual = 10 then
    { s with bufferIndex := s.bufferIndex + 1, line := s.line + 1, column := 1 }
  else
    { s with bufferIndex := s.bufferIndex + 1, column := s.column + 1 }

/-- Get the current byte, filling the buffer if needed
(Lexer::current_char). -/
def BufLexer.currentChar (s : BufLexer) : Except Error (Nat × BufLexer) :=
  match s.readIfNeeded with
  | .error e => .error e
  | .ok s1 => .ok (s1.buffer.getD s1.bufferIndex 0, s1)

/-- Eat the expected byte (Lexer::eat). -/
def BufLexer.eat (expected : Nat) (s : BufLexer) : Except Error BufLexer :=
  match s.currentChar with
  | .error e => .error e
  | .ok (actual, s1) =>
    if actual = expected then .ok (s1.advance actual)
    else .error (.unexpectedChar actual [expected] ⟨s1.line, s1.column⟩)

/-- Advance while the predicate holds (Lexer::advance_while): a refill
precedes every predicate test. -/
def BufLexer.advanceWhile : Nat → (Nat → Bool) → BufLexer → Except Error BufLexer
  | 0, _, _ => .error (.msg "fuel exhausted")
  | fuel + 1, pred, s =>
    match s.currentChar with
    | .error e => .error e
    | .ok (actual, s1) =>
      if pred actual then BufLexer.advanceWhile fuel pred (s1.advance actual)
      else .ok s1

/-- The delimiter loop of the block-comment branch of Lexer::comment,
recording at every evaluation of the loop condition the pair of the
buffer index and the valid-byte count at which the four-byte slice
comparison `buffer[buffer_index..buffer_index + 4] != b"////"` is
performed. -/
def BufLexer.commentLoop : Nat → BufLexer → List (Nat × Nat) →
    (Except Error BufLexer) × List (Nat × Nat)
  | 0, _, trace => (.error (.msg "fuel exhausted"), trace)
  | fuel + 1, s, trace =>
    let trace1 := trace ++ [(s.bufferIndex, s.bufferSize)]
    if (s.buffer.drop s.bufferIndex).take 4 = [47, 47, 47, 47] then
      (match s.eat 47 with
       | .error e => .error e
       | .ok s1 =>
         match s1.eat 47 with
         | .error e => .error e
         | .ok s2 =>
           match s2.eat 47 with
           | .error e => .error e
           | .ok s3 => s3.eat 47,
       trace1)
    else
      match BufLexer.advanceWhile (s.bufferSize + s.reader.length + 2)
          (fun c => !(c == 10)) s with
      | .error e => (.error e, trace1)
      | .ok s1 =>
        match BufLexer.advanceWhile (s1.bufferSize + s1.reader.length + 2)
            (fun c => c == 10) s1 with
        | .error e => (.error e, trace1)
        | .ok s2 => BufLexer.commentLoop fuel s2 trace1

/-- Parse and ignore a comment (Lexer::comment) over the buffered model,
returning the result together with the trace of delimiter comparisons. -/
def BufLexer.comment (s : BufLexer) : (Except Error BufLexer) × List (Nat × Nat) :=
  match s.eat 47 with
  | .error e => (.error e, [])
  | .ok s1 =>
    match s1.eat 47 with
    | .error e => (.error e, [])
    | .ok s2 =>
      match s2.currentChar with
      | .error e => (.error e, [])
      | .ok (b, s3) =>
        if b = 47 then
          match s3.eat 47 with
          | .error e => (.error e, [])
          | .ok s4 =>
            match s4.eat 47 with
            | .error e => (.error e, [])
            | .ok s5 =>
              BufLexer.commentLoop (s5.bufferSize + s5.reader.length + 2) s5 []
        else
          (match BufLexer.advanceWhile (s3.bufferSize + s3.reader.length + 2)
              (fun c => !(c == 10)) s3 with
           | .error e => .error e
           | .ok s4 => .ok s4,
           [])

/-- Modelled from the spec: the word-stopping byte set exactly as the
spec sentence lists it, which omits the colon byte 58 that the byte
string of Lexer::word contains; kept separate so that the spec statement
can be compared against the source. -/
def claimedStopByte (b : Nat) : Bool :=
  b == 32 || b == 42 || b == 95 || b == 96 || b == 35 || b == 91 ||
  b == 93 || b == 94 || b == 126 || b == 10 || b == 13 || b == 9

/-- Modelled from the spec: the maximal run of bytes outside the
claimed stopping set, the word the spec predicts the lexer returns. -/
def claimedWordRun (bs : List Nat) : List Nat :=
  bs.takeWhile (fun b => !claimedStopByte b)

deriving instance DecidableEq for Except

/-!
Theorems.  Helper lemmas about the word scanner come first, then one
theorem per claim (with a witness where the theorem carries
hypotheses).
-/

/-- The word scanner consumes exactly a run of non-stop bytes up to the
first stop byte, leaving the stop byte unconsumed and moving the column
by the length of the run (no newline can occur inside the run). -/
theorem wordAux_run (v : List Nat) (d : Nat) (rest : List Nat) (l c : Nat)
    (hv : ∀ b ∈ v, isStopByte b = false) (hd : isStopByte d = true) :
    wordAux (v ++ d :: rest) l c = .ok (v, d :: rest, l, c + v.length) := by
  induction v generalizing c with
  | nil => simp [wordAux, hd]
  | cons b w ih =>
    have hb : isStopByte b = false := hv b (by simp)
    have hb10 : b ≠ 10 := by
      intro h
      rw [h] at hb
      simp [isStopByte] at hb
    have hw : ∀ x ∈ w, isStopByte x = false := fun x hx => hv x (by simp [hx])
    rw [List.cons_append]
    rw [wordAux]
    rw [if_neg (by simp [hb])]
    rw [if_neg hb10, if_neg hb10]
    rw [ih (c + 1) hw]
    have : c + 1 + w.length = c + (w.length + 1) := by omega
    simp [this]

/-- The word scanner fails with Eof when every remaining byte continues
the run, because the refill preceding each predicate test finds the
source exhausted. -/
theorem wordAux_eof (v : List Nat) (l c : Nat)
    (hv : ∀ b ∈ v, isStopByte b = false) :
    wordAux v l c = .error .eof := by
  induction v generalizing c with
  | nil => rfl
  | cons b w ih =>
    have hb : isStopByte b = false := hv b (by simp)
    have hb10 : b ≠ 10 := by
      intro h
      rw [h] at hb
      simp [isStopByte] at hb
    have hw : ∀ x ∈ w, isStopByte x = false := fun x hx => hv x (by simp [hx])
    rw [wordAux]
    rw [if_neg (by simp [hb])]
    rw [if_neg hb10, if_neg hb10]
    rw [ih _ hw]

/-- Lexer::word on a run followed by a stop byte returns the run as a
Word token. -/
theorem word_run (v : List Nat) (d : Nat) (rest : List Nat) (l c : Nat)
    (hne : v ≠ []) (hv : ∀ b ∈ v, isStopByte b = false) (hd : isStopByte d = true) :
    Lexer.word ⟨v ++ d :: rest, l, c, none⟩ =
      .ok (.word v, ⟨d :: rest, l, c + v.length, none⟩) := by
  rw [Lexer.word]
  rw [wordAux_run v d rest l c hv hd]
  simp [hne]

/-- Lexer::word fails with Eof when the input is exhausted before a stop
byte appears. -/
theorem word_eof (v : List Nat) (l c : Nat)
    (hv : ∀ b ∈ v, isStopByte b = false) :
    Lexer.word ⟨v, l, c, none⟩ = .error .eof := by
  rw [Lexer.word]
  rw [wordAux_eof v l c hv]

/-- Lexer::word on a stop byte yields a zero-length run and therefore
the fatal internal Msg error naming the byte. -/
theorem word_bug (b : Nat) (rest : List Nat) (l c : Nat)
    (hb : isStopByte b = true) :
    Lexer.word ⟨b :: rest, l, c, none⟩ =
      .error (.msg ("bug in the parser, next character `" ++
        String.singleton (Char.ofNat b) ++ "` is not part of a word token")) := by
  rw [Lexer.word]
  rw [show wordAux (b :: rest) l c = .ok ([], b :: rest, l, c) by rw [wordAux, if_pos hb]]
  simp

/-- Lexer::token dispatches to Lexer::word when the current byte is none
of the ten bytes the match of token() handles. -/
theorem tokenF_to_word (f : Nat) (b : Nat) (tl : List Nat) (l c : Nat)
    (h47 : b ≠ 47) (h60 : b ≠ 60) (h39 : b ≠ 39) (h10 : b ≠ 10) (h13 : b ≠ 13)
    (h35 : b ≠ 35) (h32 : b ≠ 32) (h91 : b ≠ 91) (h93 : b ≠ 93) (h95 : b ≠ 95) :
    Lexer.tokenF (f + 1) ⟨b :: tl, l, c, none⟩ = Lexer.word ⟨b :: tl, l, c, none⟩ := by
  rw [Lexer.tokenF]
  simp [h47, h60, h39, h10, h13, h35, h32, h91, h93, h95]

/-- Every byte outside the stop set is none of the seven stop bytes that
token() dispatches on. -/
theorem nonStop_not_dispatch (b : Nat) (hb : isStopByte b = false) :
    b ≠ 10 ∧ b ≠ 13 ∧ b ≠ 35 ∧ b ≠ 32 ∧ b ≠ 91 ∧ b ≠ 93 ∧ b ≠ 95 := by
  refine ⟨?_, ?_, ?_, ?_, ?_, ?_, ?_⟩ <;>
    · intro h
      rw [h] at hb
      simp [isStopByte] at hb

/-- Lexer::token on a word-starting byte followed by a non-stop run and
a stop byte returns the whole run as one Word token. -/
theorem token_word_run (b : Nat) (w rest : List Nat) (d l c : Nat)
    (hb : isStopByte b = false) (hw : ∀ x ∈ w, isStopByte x = false)
    (hd : isStopByte d = true)
    (h47 : b ≠ 47) (h60 : b ≠ 60) (h39 : b ≠ 39) :
    Lexer.token ⟨b :: (w ++ d :: rest), l, c, none⟩ =
      .ok (.word (b :: w), ⟨d :: rest, l, c + (b :: w).length, none⟩) := by
  obtain ⟨h10, h13, h35, h32, h91, h93, h95⟩ := nonStop_not_dispatch b hb
  rw [Lexer.token]
  rw [tokenF_to_word _ _ _ _ _ h47 h60 h39 h10 h13 h35 h32 h91 h93 h95]
  rw [show b :: (w ++ d :: rest) = (b :: w) ++ d :: rest by rfl]
  exact word_run (b :: w) d rest l c (by simp)
    (by
      intro x hx
      rcases List.mem_cons.mp hx with h | h
      · rw [h]; exact hb
      · exact hw x h) hd

/-- Lexer::token fails with Eof when a word-starting byte begins a run
that the input ends inside. -/
theorem token_word_eof (b : Nat) (w : List Nat) (l c : Nat)
    (hb : isStopByte b = false) (hw : ∀ x ∈ w, isStopByte x = false)
    (h47 : b ≠ 47) (h60 : b ≠ 60) (h39 : b ≠ 39) :
    Lexer.token ⟨b :: w, l, c, none⟩ = .error .eof := by
  obtain ⟨h10, h13, h35, h32, h91, h93, h95⟩ := nonStop_not_dispatch b hb
  rw [Lexer.token]
  rw [tokenF_to_word _ _ _ _ _ h47 h60 h39 h10 h13 h35 h32 h91 h93 h95]
  exact word_eof (b :: w) l c
    (by
      intro x hx
      rcases List.mem_cons.mp hx with h | h
      · rw [h]; exact hb
      · exact hw x h)

/-- Lexer::token on a stop byte that the match of token() does not
dispatch reaches Lexer::word with a zero-length run and fails with the
internal Msg error. -/
theorem token_word_bug (b : Nat) (rest : List Nat) (l c : Nat)
    (hb : isStopByte b = true)
    (h10 : b ≠ 10) (h13 : b ≠ 13) (h35 : b ≠ 35) (h32 : b ≠ 32)
    (h91 : b ≠ 91) (h93 : b ≠ 93) (h95 : b ≠ 95) :
    Lexer.token ⟨b :: rest, l, c, none⟩ =
      .error (.msg ("bug in the parser, next character `" ++
        String.singleton (Char.ofNat b) ++ "` is not part of a word token")) := by
  have h47 : b ≠ 47 := by intro h; rw [h] at hb; simp [isStopByte] at hb
  have h60 : b ≠ 60 := by intro h; rw [h] at hb; simp [isStopByte] at hb
  have h39 : b ≠ 39 := by intro h; rw [h] at hb; simp [isStopByte] at hb
  rw [Lexer.token]
  rw [tokenF_to_word _ _ _ _ _ h47 h60 h39 h10 h13 h35 h32 h91 h93 h95]
  exact word_bug b rest l c hb

/-- Claim C1, counterexample: on the exact input of the claim, the byte
stream of the text a, space, b, newline, newline, c, repeated calls to
node() yield one Paragraph with items Word a, Space, Word b and then an
Eof error, not a second Paragraph holding Word c: the lexer reaches the
end of input while scanning the word c, so the claimed second Paragraph
node is never produced. -/
theorem c1_counterexample :
    nodeResults 3 (Lexer.init [97, 32, 98, 10, 10, 99]) =
      [.ok (.paragraph (.mk [.word "a", .space, .word "b"])), .error .eof] := by
  rfl

/-- Claim C1, amended: the paragraph production collects the items of a
single line and terminates at the first line with zero items, leaving
the terminating newline unconsumed (so consecutive non-blank lines
become separate Paragraph nodes, as the input of the text a, newline, b,
newline shows); on the input of the text a, space, b, newline, newline,
c, newline — the input of the claim with a final newline added so that
the last word is terminated — node() yields exactly two Paragraph nodes,
the first with items Word a, Space, Word b and the second with items
Word c, and rendering the first with the default renderer writes exactly
the well-known paragraph div. -/
theorem c1_amended :
    nodeResults 4 (Lexer.init [97, 32, 98, 10, 10, 99, 10]) =
      [.ok (.paragraph (.mk [.word "a", .space, .word "b"])),
       .ok (.paragraph (.mk [.word "c"])), .error .eof] ∧
    gen (.paragraph (.mk [.word "a", .space, .word "b"])) =
      "<div class=\"paragraph\"><p>a b</p></div>" ∧
    nodeResults 4 (Lexer.init [97, 10, 98, 10]) =
      [.ok (.paragraph (.mk [.word "a"])),
       .ok (.paragraph (.mk [.word "b"])), .error .eof] := by
  exact ⟨rfl, rfl, rfl⟩

/-- Claim C2, counterexample: the star byte is not consumed as a
single-char Star token; token() routes it to the word production, whose
run is empty because star is a word-stopping byte, so the fatal internal
Msg error is returned instead of a token. -/
theorem c2_counterexample :
    Lexer.token (Lexer.init [42]) =
      .error (.msg "bug in the parser, next character `*` is not part of a word token") := by
  rfl

/-- Claim C2, amended: token() consumes the number sign, the opening and
closing square brackets and the underscore as their single-char tokens;
no double-char upgrade exists for any marker (a second underscore is
left for the next call, so two consecutive underscores lex as two
Underscore tokens); the bytes star, backquote, caret and tilde are not
dispatched as markers at all: they fall through to the word production
and, being word-stopping bytes, produce the fatal internal Msg error. -/
theorem c2_amended :
    (∀ rest l c, Lexer.token ⟨35 :: rest, l, c, none⟩ =
      .ok (.numberSign, ⟨rest, l, c + 1, none⟩)) ∧
    (∀ rest l c, Lexer.token ⟨91 :: rest, l, c, none⟩ =
      .ok (.openSquareBracket, ⟨rest, l, c + 1, none⟩)) ∧
    (∀ rest l c, Lexer.token ⟨93 :: rest, l, c, none⟩ =
      .ok (.closeSquareBracket, ⟨rest, l, c + 1, none⟩)) ∧
    (∀ rest l c, Lexer.token ⟨95 :: rest, l, c, none⟩ =
      .ok (.underscore, ⟨rest, l, c + 1, none⟩)) ∧
    (∀ rest l c, Lexer.token ⟨95 :: 95 :: rest, l, c, none⟩ =
      .ok (.underscore, ⟨95 :: rest, l, c + 1, none⟩)) ∧
    (∀ rest l c, Lexer.token ⟨42 :: rest, l, c, none⟩ =
      .error (.msg ("bug in the parser, next character `" ++
        String.singleton (Char.ofNat 42) ++ "` is not part of a word token"))) ∧
    (∀ rest l c, Lexer.token ⟨96 :: rest, l, c, none⟩ =
      .error (.msg ("bug in the parser, next character `" ++
        String.singleton (Char.ofNat 96) ++ "` is not part of a word token"))) ∧
    (∀ rest l c, Lexer.token ⟨94 :: rest, l, c, none⟩ =
      .error (.msg ("bug in the parser, next character `" ++
        String.singleton (Char.ofNat 94) ++ "` is not part of a word token"))) ∧
    (∀ rest l c, Lexer.token ⟨126 :: rest, l, c, none⟩ =
      .error (.msg ("bug in the parser, next character `" ++
        String.singleton (Char.ofNat 126) ++ "` is not part of a word token"))) := by
  refine ⟨?_, ?_, ?_, ?_, ?_, ?_, ?_, ?_, ?_⟩
  · intro rest l c
    simp [Lexer.token, Lexer.tokenF, Lexer.eat, Lexer.advance]
  · intro rest l c
    simp [Lexer.token, Lexer.tokenF, Lexer.eat, Lexer.advance]
  · intro rest l c
    simp [Lexer.token, Lexer.tokenF, Lexer.eat, Lexer.advance]
  · intro rest l c
    simp [Lexer.token, Lexer.tokenF, Lexer.eat, Lexer.advance]
  · intro rest l c
    simp [Lexer.token, Lexer.tokenF, Lexer.eat, Lexer.advance]
  · intro rest l c
    exact token_word_bug 42 rest l c (by decide) (by decide) (by decide) (by decide)
      (by decide) (by decide) (by decide) (by decide)
  · intro rest l c
    exact token_word_bug 96 rest l c (by decide) (by decide) (by decide) (by decide)
      (by decide) (by decide) (by decide) (by decide)
  · intro rest l c
    exact token_word_bug 94 rest l c (by decide) (by decide) (by decide) (by decide)
      (by decide) (by decide) (by decide) (by decide)
  · intro rest l c
    exact token_word_bug 126 rest l c (by decide) (by decide) (by decide) (by decide)
      (by decide) (by decide) (by decide) (by decide)

/-- Claim C2, witness: the amended number-sign case evaluated on the
bytes of a number sign followed by the letter x. -/
theorem c2_witness :
    Lexer.token ⟨[35, 120], 1, 1, none⟩ =
      .ok (.numberSign, ⟨[120], 1, 2, none⟩) := by
  exact c2_amended.1 [120] 1 1

/-- Claim C3, counterexample: on the input of the text a, colon, b the
lexer returns Word with the single byte a — the colon byte 58 stops the
run although the claimed marker set does not contain it, so the claimed
maximal run (the whole input) is not what token() returns; moreover, on
the input of the text a, b with no terminator the claim predicts Word ab
but token() fails with Eof, since the refill preceding each scan step
finds the source exhausted. -/
theorem c3_counterexample :
    Lexer.token (Lexer.init [97, 58, 98]) =
      .ok (.word [97], ⟨[58, 98], 1, 2, none⟩) ∧
    claimedWordRun [97, 58, 98] = [97, 58, 98] ∧
    ([97] : List Nat) ≠ [97, 58, 98] ∧
    Lexer.token (Lexer.init [97, 98]) = .error .eof := by
  exact ⟨rfl, rfl, by decide, rfl⟩

/-- Claim C3, amended: whenever token() reaches a byte that begins a
word (a byte outside the stop set that is also none of the slash,
less-than and apostrophe dispatch bytes), it consumes the maximal run of
consecutive bytes outside the stop set of space, star, underscore,
backquote, number sign, brackets, caret, tilde, colon, newline, carriage
return and tab — the set of the source includes the colon, which the
claim omitted; if a stop byte follows the run, Word(run) is returned
with the stop byte unconsumed; if the input ends inside the run, token()
fails with Eof instead of returning the run; and a zero-length run
yields the fatal internal Msg error rather than a token. -/
theorem c3_amended :
    (∀ b w rest d l c, isStopByte b = false → (∀ x ∈ w, isStopByte x = false) →
      isStopByte d = true → b ≠ 47 → b ≠ 60 → b ≠ 39 →
      Lexer.token ⟨b :: (w ++ d :: rest), l, c, none⟩ =
        .ok (.word (b :: w), ⟨d :: rest, l, c + (b :: w).length, none⟩)) ∧
    (∀ b w l c, isStopByte b = false → (∀ x ∈ w, isStopByte x = false) →
      b ≠ 47 → b ≠ 60 → b ≠ 39 →
      Lexer.token ⟨b :: w, l, c, none⟩ = .error .eof) ∧
    (∀ b rest l c, isStopByte b = true → b ≠ 10 → b ≠ 13 → b ≠ 35 → b ≠ 32 →
      b ≠ 91 → b ≠ 93 → b ≠ 95 →
      Lexer.token ⟨b :: rest, l, c, none⟩ =
        .error (.msg ("bug in the parser, next character `" ++
          String.singleton (Char.ofNat b) ++ "` is not part of a word token"))) := by
  refine ⟨?_, ?_, ?_⟩
  · intro b w rest d l c hb hw hd h47 h60 h39
    exact token_word_run b w rest d l c hb hw hd h47 h60 h39
  · intro b w l c hb hw h47 h60 h39
    exact token_word_eof b w l c hb hw h47 h60 h39
  · intro b rest l c hb h10 h13 h35 h32 h91 h93 h95
    exact token_word_bug b rest l c hb h10 h13 h35 h32 h91 h93 h95

/-- Claim C3, witness: the amended run case evaluated on the input of
the text a, colon, b, where the word is the byte a and the colon is the
stop byte left unconsumed. -/
theorem c3_witness :
    Lexer.token ⟨[97, 58, 98], 1, 1, none⟩ =
      .ok (.word [97], ⟨[58, 98], 1, 2, none⟩) := by
  exact c3_amended.1 97 [] [98] 58 1 1 (by decide) (by decide) (by decide)
    (by decide) (by decide) (by decide)

/-- Claim C4: while the lexer matches a prospective horizontal-rule
marker of three apostrophe bytes, a non-apostrophe byte in second or
third position makes token() fail with UnexpectedChar carrying that byte
as actual, exactly the apostrophe byte 39 as the expected set, and the
position of the offending byte; in particular two apostrophes followed
by a space fail with the position of the space, column 3 of line 1, and
the two apostrophes are never treated as text. -/
theorem c4_theorem :
    (∀ b rest l c, b ≠ 39 →
      Lexer.token ⟨39 :: b :: rest, l, c, none⟩ =
        .error (.unexpectedChar b [39] ⟨l, c + 1⟩)) ∧
    (∀ b rest l c, b ≠ 39 →
      Lexer.token ⟨39 :: 39 :: b :: rest, l, c, none⟩ =
        .error (.unexpectedChar b [39] ⟨l, c + 1 + 1⟩)) ∧
    Lexer.token (Lexer.init [39, 39, 32]) =
      .error (.unexpectedChar 32 [39] ⟨1, 3⟩) := by
  refine ⟨?_, ?_, rfl⟩
  · intro b rest l c h
    simp [Lexer.token, Lexer.tokenF, Lexer.eat, Lexer.advance, Lexer.pos, h]
  · intro b rest l c h
    simp [Lexer.token, Lexer.tokenF, Lexer.eat, Lexer.advance, Lexer.pos, h]

/-- Claim C4, witness: one apostrophe followed by a space fails with
UnexpectedChar naming the space byte at column 2. -/
theorem c4_witness :
    Lexer.token ⟨[39, 32], 1, 1, none⟩ =
      .error (.unexpectedChar 32 [39] ⟨1, 2⟩) := by
  exact c4_theorem.1 32 [] 1 1 (by decide)

/-- Claim C5: every inline span production propagates Eof unchanged when
the input is exhausted before the closing marker appears, producing no
truncated item: the italic and mark productions opened on a marker
followed by a word the input ends inside return the Eof error (the word
scan itself hits the exhausted source), and the bold, inline-code,
superscript and subscript productions on exhausted input return Eof from
the attempt to eat their opening marker. -/
theorem c5_theorem :
    (∀ f attrs b w l c, isStopByte b = false → (∀ x ∈ w, isStopByte x = false) →
      b ≠ 47 → b ≠ 60 → b ≠ 39 →
      italic (f + 1) attrs ⟨95 :: b :: w, l, c, none⟩ = .error .eof) ∧
    (∀ f attrs b w l c, isStopByte b = false → (∀ x ∈ w, isStopByte x = false) →
      b ≠ 47 → b ≠ 60 → b ≠ 39 →
      mark (f + 1) attrs ⟨35 :: b :: w, l, c, none⟩ = .error .eof) ∧
    (∀ f attrs l c, bold f attrs ⟨[], l, c, none⟩ = .error .eof) ∧
    (∀ f attrs l c, inlineCode f attrs ⟨[], l, c, none⟩ = .error .eof) ∧
    (∀ f attrs l c, superscript f attrs ⟨[], l, c, none⟩ = .error .eof) ∧
    (∀ f attrs l c, subscript f attrs ⟨[], l, c, none⟩ = .error .eof) := by
  refine ⟨?_, ?_, ?_, ?_, ?_, ?_⟩
  · intro f attrs b w l c hb hw h47 h60 h39
    have heat : pEat .underscore ⟨95 :: b :: w, l, c, none⟩ =
        .ok ⟨b :: w, l, c + 1, none⟩ := by
      simp [pEat, Lexer.token, Lexer.tokenF, Lexer.eat, Lexer.advance]
    have htok : Lexer.token ⟨b :: w, l, c + 1, none⟩ = .error .eof :=
      token_word_eof b w l (c + 1) hb hw h47 h60 h39
    simp [italic, spanGen, textBetween, heat, textWhileGen, Lexer.peek, htok]
  · intro f attrs b w l c hb hw h47 h60 h39
    have heat : pEat .numberSign ⟨35 :: b :: w, l, c, none⟩ =
        .ok ⟨b :: w, l, c + 1, none⟩ := by
      simp [pEat, Lexer.token, Lexer.tokenF, Lexer.eat, Lexer.advance]
    have htok : Lexer.token ⟨b :: w, l, c + 1, none⟩ = .error .eof :=
      token_word_eof b w l (c + 1) hb hw h47 h60 h39
    simp [mark, markGen, textBetween, heat, textWhileGen, Lexer.peek, htok]
  · intro f attrs l c
    simp [bold, spanGen, textBetween, pEat, Lexer.token, Lexer.tokenF]
  · intro f attrs l c
    simp [inlineCode, spanGen, textBetween, pEat, Lexer.token, Lexer.tokenF]
  · intro f attrs l c
    simp [superscript, spanGen, textBetween, pEat, Lexer.token, Lexer.tokenF]
  · intro f attrs l c
    simp [subscript, spanGen, textBetween, pEat, Lexer.token, Lexer.tokenF]

/-- Claim C5, witness: the italic production applied to an underscore
followed by the word bytes of the text word and the end of input
surfaces Eof, not a truncated Italic item. -/
theorem c5_witness :
    italic 1 [] ⟨[95, 119, 111, 114, 100], 1, 1, none⟩ = .error .eof := by
  exact c5_theorem.1 0 [] 119 [111, 114, 100] 1 1 (by decide) (by decide)
    (by decide) (by decide) (by decide)

/-- Claim C6: an attribute list is consumed by exactly the next inline
span and then cleared: the text item parsed from the byte stream of the
text open-bracket, myrole, close-bracket, underscore, italic, underscore
is the single Tag item with the Italic tag, the text holding the one
word italic, and the single Role attribute myrole, with the whole input
consumed; and in the paragraph parsed from the stream holding that
attribute list, a first italic span, a space and a second italic span,
the Role attribute lands on the first span only, the later Space and the
second span carrying no attribute. -/
theorem c6_theorem :
    textItem [] (Lexer.init
        [91, 109, 121, 114, 111, 108, 101, 93, 95, 105, 116, 97, 108, 105, 99, 95]) =
      .ok (.tag .italic (.mk [.word "italic"]) [.role "myrole"],
        ⟨[], 1, 17, none⟩) ∧
    nodeResults 2 (Lexer.init
        [91, 109, 121, 114, 111, 108, 101, 93, 95, 97, 95, 32, 95, 98, 95, 10]) =
      [.ok (.paragraph (.mk
        [.tag .italic (.mk [.word "a"]) [.role "myrole"],
         .space,
         .tag .italic (.mk [.word "b"]) []])),
       .error .eof] := by
  exact ⟨rfl, rfl⟩

/-- Claim C7: after one successful peek(), a further peek() before any
token() call returns the same cached token with the lexer state
unchanged (so nothing is read from the source), the next token() call
returns exactly the cached token and clears the lookahead slot, and
while the token is cached pos() reports the position as it was
immediately before that token was read. -/
theorem c7_theorem (s s' : Lexer) (t : Token) (h : s.peek = .ok (t, s')) :
    s'.peek = .ok (t, s') ∧
    s'.token = .ok (t, { s' with nextToken := none }) ∧
    s'.pos = s.pos := by
  rw [Lexer.peek] at h
  cases hn : s.nextToken with
  | some pt =>
    rw [hn] at h
    obtain ⟨p, t0⟩ := pt
    simp at h
    obtain ⟨ht, hs⟩ := h
    subst ht
    subst hs
    refine ⟨?_, ?_, rfl⟩
    · rw [Lexer.peek, hn]
    · rw [Lexer.token, Lexer.tokenF]
      rw [hn]
  | none =>
    rw [hn] at h
    cases htok : Lexer.token s with
    | error e => rw [htok] at h; simp at h
    | ok ts =>
      obtain ⟨t1, s1⟩ := ts
      rw [htok] at h
      simp at h
      obtain ⟨ht, hs⟩ := h
      subst ht
      have hpos : Lexer.pos s = ⟨s.line, s.column⟩ := by rw [Lexer.pos, hn]
      refine ⟨?_, ?_, ?_⟩
      · rw [Lexer.peek, ← hs]
      · rw [Lexer.token, Lexer.tokenF, ← hs]
      · rw [← hs, Lexer.pos]

/-- Claim C7, witness: peeking the lexer over the bytes of the text a,
space, b caches the Word token for a with the pre-peek position, the
second peek returns the same cached value with the state unchanged, the
next token() call returns it and clears the slot, and pos() reports the
pre-peek position while the token is cached. -/
theorem c7_witness :
    (Lexer.init [97, 32, 98]).peek =
      .ok (.word [97], ⟨[32, 98], 1, 2, some (⟨1, 1⟩, .word [97])⟩) ∧
    (Lexer.peek ⟨[32, 98], 1, 2, some (⟨1, 1⟩, .word [97])⟩ =
      .ok (.word [97], ⟨[32, 98], 1, 2, some (⟨1, 1⟩, .word [97])⟩) ∧
    Lexer.token ⟨[32, 98], 1, 2, some (⟨1, 1⟩, .word [97])⟩ =
      .ok (.word [97], ⟨[32, 98], 1, 2, none⟩) ∧
    Lexer.pos ⟨[32, 98], 1, 2, some (⟨1, 1⟩, .word [97])⟩ =
      Lexer.pos (Lexer.init [97, 32, 98])) := by
  refine ⟨by rfl, ?_⟩
  exact c7_theorem (Lexer.init [97, 32, 98])
    ⟨[32, 98], 1, 2, some (⟨1, 1⟩, .word [97])⟩ (.word [97]) (by rfl)

/-- Claim C8: the three-apostrophe marker flanked by newlines parses to
exactly one HorizontalRule node, rendered by the default renderer as the
self-closing hr element; the three-less-than marker flanked by newlines
parses to exactly one PageBreak node, rendered as the page-break div. -/
theorem c8_theorem :
    nodeResults 3 (Lexer.init [10, 39, 39, 39, 10]) =
      [.ok .horizontalRule, .error .eof] ∧
    gen .horizontalRule = "<hr/>" ∧
    nodeResults 3 (Lexer.init [10, 60, 60, 60, 10]) =
      [.ok .pageBreak, .error .eof] ∧
    gen .pageBreak = "<div style=\"page-break-after: always;\"></div>" := by
  exact ⟨rfl, rfl, rfl, rfl⟩

/-- Claim C9: the default renderer maps a Mark with an empty attribute
list to the mark element around the rendered text and a Mark with
attributes to a span element carrying the rendered attributes; each Role
attribute renders as a class binding, and the renderings of the
attributes of a list are concatenated with no separator between them. -/
theorem c9_theorem :
    (∀ t, Html.write (genMark t []) =
      "<mark>" ++ Html.write (genText t) ++ "</mark>") ∧
    (∀ t a as, Html.write (genMark t (a :: as)) =
      "<span " ++ attributesToString (a :: as) ++ ">" ++
        Html.write (genText t) ++ "</span>") ∧
    (∀ r rest, attributesToString (.role r :: rest) =
      "class=\"" ++ r ++ "\"" ++ attributesToString rest) := by
  exact ⟨fun _ => rfl, fun _ _ _ => rfl, fun _ _ => rfl⟩

/-- Claim C9, witness: the attribute-free case evaluated on a text
holding the one word x. -/
theorem c9_witness :
    Html.write (genMark (.mk [.word "x"]) []) =
      "<mark>" ++ Html.write (genText (.mk [.word "x"])) ++ "</mark>" := by
  exact c9_theorem.1 (.mk [.word "x"])

/-- Claim C10: the four-byte delimiter comparison of the block-comment
loop does not stay within the valid buffer region on every input: on the
five-byte source of four slashes and a newline, the first evaluation of
the loop condition happens at buffer index 4 with only 5 valid bytes, so
the compared slice extends three bytes past the bytes read in the
current fill, refuting the claimed bound. -/
theorem c10_theorem :
    (BufLexer.comment (BufLexer.init [47, 47, 47, 47, 10])).2 = [(4, 5)] ∧
    ((BufLexer.comment (BufLexer.init [47, 47, 47, 47, 10])).2).all
      (fun p => decide (p.1 + 4 ≤ p.2)) = false := by
  exact ⟨by decide, by decide⟩

end Adoc
